import Mathlib

/-!
Shallow embedding of the Discord-bot dashboard backend
(`src/storage.ts` and the Express route handlers in `src/unnamed/part_000`).

Conventions of the embedding:
* timestamps (`Date` / `getTime()`) are modelled as `Nat` values passed in
  explicitly as `now` parameters;
* JavaScript `number` arguments that may be `NaN` are modelled by `JsNum`;
* `undefined` is `Option.none`;
* the mutable `MemStorage` object becomes a record threaded through every
  operation; each method returns its result together with the new state;
* `Math.random()` in the simulated `ping` response is modelled by an explicit
  `latency` parameter (the value of `Math.floor(Math.random() * 50) + 20`).
-/

namespace BotDashboard

/-- A JavaScript number that is either an integer or `NaN`
(used for `parseInt` results and the logs `limit` argument). -/
inductive JsNum where
  | nan : JsNum
  | int (n : Int) : JsNum
deriving DecidableEq

/-- JavaScript truthiness of an optional numeric value:
`undefined`, `NaN` and `0` are falsy, every other integer is truthy. -/
def jsTruthy : Option JsNum → Bool
  | none => false
  | some .nan => false
  | some (.int n) => n != 0

/-- `Command` record from `@shared/schema` as stored by `MemStorage`. -/
structure Command where
  id : Int
  name : String
  description : String
  usage : String
  active : Bool
  createdAt : Nat
deriving DecidableEq

/-- Modelled from the spec: the shared schema file is not among the sources;
per the spec data model an insert payload for a command carries exactly
`name`, `description`, `usage`, `active` — never `id` or `createdAt`. -/
structure InsertCommand where
  name : String
  description : String
  usage : String
  active : Bool
deriving DecidableEq

/-- Modelled from the spec: `Partial<InsertCommand>` — any subset of the
insert fields may be supplied (`none` = field absent from the patch). -/
structure CommandUpdate where
  name : Option String := none
  description : Option String := none
  usage : Option String := none
  active : Option Bool := none
deriving DecidableEq

/-- `Log` record. -/
structure Log where
  id : Int
  eventType : String
  server : String
  user : String
  details : String
  timestamp : Nat
deriving DecidableEq

/-- Insert payload for a log entry. -/
structure InsertLog where
  eventType : String
  server : String
  user : String
  details : String
deriving DecidableEq

/-- `BotStat` singleton record. -/
structure BotStat where
  id : Int
  uptime : String
  servers : Int
  commands : Int
  memoryUsage : String
  apiLatency : Int
  startedAt : Nat
  updatedAt : Nat
deriving DecidableEq

/-- Insert payload for the bot-stats record (everything but `id`). -/
structure InsertBotStat where
  uptime : String
  servers : Int
  commands : Int
  memoryUsage : String
  apiLatency : Int
  startedAt : Nat
  updatedAt : Nat
deriving DecidableEq

/-- The in-memory store.  The JavaScript `Map<number, Command>` iterates its
entries in insertion order, `set` on an existing key replaces the value in
place, and `set` on a fresh key appends; we model it as the list of values in
insertion order (keys are the `id` fields, unique in every reachable state). -/
structure MemStorage where
  commands : List Command
  logs : List Log
  botStats : Option BotStat
  commandsIdCounter : Int
  logsIdCounter : Int
deriving DecidableEq

namespace MemStorage

/-- `getCommands`: `Array.from(this.commands.values())` — insertion order. -/
def getCommands (s : MemStorage) : List Command :=
  s.commands

/-- `getCommand(id)`: `this.commands.get(id)`. -/
def getCommand (s : MemStorage) (id : Int) : Option Command :=
  s.commands.find? (fun c => c.id == id)

/-- `getCommandByName(name)`: first command whose name matches exactly. -/
def getCommandByName (s : MemStorage) (name : String) : Option Command :=
  s.commands.find? (fun c => c.name == name)

/-- `createCommand`: take the counter as the id, bump the counter, stamp
`createdAt = now`, append to the map. -/
def createCommand (s : MemStorage) (c : InsertCommand) (now : Nat) :
    Command × MemStorage :=
  let id := s.commandsIdCounter
  let newCommand : Command :=
    { id := id, name := c.name, description := c.description,
      usage := c.usage, active := c.active, createdAt := now }
  (newCommand,
   { s with commands := s.commands ++ [newCommand],
            commandsIdCounter := s.commandsIdCounter + 1 })

/-- `{...existingCommand, ...command}`: fields present in the patch override,
`id` and `createdAt` cannot appear in the patch so they survive. -/
def mergeCommand (c : Command) (u : CommandUpdate) : Command :=
  { id := c.id,
    name := u.name.getD c.name,
    description := u.description.getD c.description,
    usage := u.usage.getD c.usage,
    active := u.active.getD c.active,
    createdAt := c.createdAt }

/-- `updateCommand(id, patch)`: `undefined` when the id is absent, otherwise
replace the entry in place (JS `Map.set` on an existing key). -/
def updateCommand (s : MemStorage) (id : Int) (u : CommandUpdate) :
    Option Command × MemStorage :=
  match s.commands.find? (fun c => c.id == id) with
  | none => (none, s)
  | some existingCommand =>
    let updatedCommand := mergeCommand existingCommand u
    (some updatedCommand,
     { s with commands :=
         s.commands.map (fun c => if c.id == id then updatedCommand else c) })

/-- `deleteCommand(id)`: `this.commands.delete(id)` — true iff present. -/
def deleteCommand (s : MemStorage) (id : Int) : Bool × MemStorage :=
  if (s.commands.find? (fun c => c.id == id)).isSome then
    (true, { s with commands := s.commands.filter (fun c => c.id != id) })
  else
    (false, s)

/-- Stable insertion of a log into a timestamp-descending list (the effect of
the comparator `(a, b) => b.timestamp - a.timestamp` under a stable sort). -/
def insertDesc (l : Log) : List Log → List Log
  | [] => [l]
  | x :: xs =>
    if x.timestamp ≥ l.timestamp then x :: insertDesc l xs else l :: x :: xs

/-- `[...this.logs].sort((a, b) => b.timestamp - a.timestamp)`: a stable sort
of a copy of the log list, descending by timestamp. -/
def sortLogsDesc : List Log → List Log
  | [] => []
  | x :: xs => insertDesc x (sortLogsDesc xs)

/-- `Array.prototype.slice(0, e)`: a negative end index counts back from the
end of the array. -/
def jsSliceTo (l : List Log) (e : Int) : List Log :=
  if e < 0 then l.take ((l.length + e).toNat) else l.take e.toNat

/-- `getLogs(limit?)`: sort a copy descending by timestamp, then
`limit ? sortedLogs.slice(0, limit) : sortedLogs` — note that `0` and `NaN`
are falsy, so they behave like an absent limit.  The store is returned
unchanged (the sort runs on a copy). -/
def getLogs (s : MemStorage) (limit : Option JsNum) : List Log × MemStorage :=
  let sortedLogs := sortLogsDesc s.logs
  (if jsTruthy limit then
     match limit with
     | some (.int n) => jsSliceTo sortedLogs n
     | _ => sortedLogs
   else sortedLogs, s)

/-- `createLog`: take the log counter as id, stamp `timestamp = now`, push. -/
def createLog (s : MemStorage) (l : InsertLog) (now : Nat) : Log × MemStorage :=
  let newLog : Log :=
    { id := s.logsIdCounter, eventType := l.eventType, server := l.server,
      user := l.user, details := l.details, timestamp := now }
  (newLog,
   { s with logs := s.logs ++ [newLog], logsIdCounter := s.logsIdCounter + 1 })

/-- `getBotStats()`. -/
def getBotStats (s : MemStorage) : Option BotStat :=
  s.botStats

/-- `updateBotStats(stats)`: full replace with fixed `id = 1`. -/
def updateBotStats (s : MemStorage) (st : InsertBotStat) :
    BotStat × MemStorage :=
  let b : BotStat :=
    { id := 1, uptime := st.uptime, servers := st.servers,
      commands := st.commands, memoryUsage := st.memoryUsage,
      apiLatency := st.apiLatency, startedAt := st.startedAt,
      updatedAt := st.updatedAt }
  (b, { s with botStats := some b })

end MemStorage

/-- The four default commands seeded by the `MemStorage` constructor. -/
def defaultCommands : List InsertCommand :=
  [ { name := "ping",
      description := "Checks the bot\x27s response time and health status.",
      usage := "/ping", active := true },
    { name := "help",
      description := "Displays a list of available commands and their usage.",
      usage := "/help [command]", active := true },
    { name := "uptime",
      description := "Shows how long the bot has been online without interruption.",
      usage := "/uptime", active := true },
    { name := "stats",
      description := "Displays bot statistics including servers, users, and commands.",
      usage := "/stats", active := true } ]

/-- The `MemStorage` constructor: empty maps, counters at 1, the four default
commands created in order, then the default bot stats installed.  `t` is the
construction time (`new Date()`). -/
def initMemStorage (t : Nat) : MemStorage :=
  let s0 : MemStorage :=
    { commands := [], logs := [], botStats := none,
      commandsIdCounter := 1, logsIdCounter := 1 }
  let s1 := defaultCommands.foldl (fun s c => (s.createCommand c t).2) s0
  (s1.updateBotStats
    { uptime := "0d 0h 0m", servers := 0,
      commands := defaultCommands.length, memoryUsage := "0 MB",
      apiLatency := 0, startedAt := t, updatedAt := t }).2

/-- One Data Store operation, for reasoning about reachable store states. -/
inductive Op where
  | create (c : InsertCommand) (now : Nat) : Op
  | update (id : Int) (u : CommandUpdate) : Op
  | delete (id : Int) : Op
  | log (l : InsertLog) (now : Nat) : Op
  | stats (st : InsertBotStat) : Op
deriving DecidableEq

/-- Apply one operation to the store (discarding the returned value). -/
def step (s : MemStorage) : Op → MemStorage
  | .create c now => (s.createCommand c now).2
  | .update id u => (s.updateCommand id u).2
  | .delete id => (s.deleteCommand id).2
  | .log l now => (s.createLog l now).2
  | .stats st => (s.updateBotStats st).2

/-- Run a sequence of operations. -/
def runOps (s : MemStorage) : List Op → MemStorage
  | [] => s
  | op :: ops => runOps (step s op) ops

/-- A store state is reachable when some operation sequence produces it from
a freshly constructed `MemStorage`. -/
def reachable (s : MemStorage) : Prop :=
  ∃ t ops, s = runOps (initMemStorage t) ops

/-- The ids handed out by the `create` operations of a run, in order. -/
def createdIds (s : MemStorage) : List Op → List Int
  | [] => []
  | op :: ops =>
    match op with
    | .create c now => (s.createCommand c now).1.id :: createdIds (step s op) ops
    | _ => createdIds (step s op) ops

/-! ### Route handlers (`src/unnamed/part_000`) -/

/-- Value of a character as a digit (`0`–`9`, `a`–`z`, `A`–`Z`). -/
def digitVal (c : Char) : Nat :=
  if c.isDigit then c.toNat - 48
  else if 97 ≤ c.toNat ∧ c.toNat ≤ 122 then c.toNat - 87
  else if 65 ≤ c.toNat ∧ c.toNat ≤ 90 then c.toNat - 55
  else 36

/-- Is `c` a digit of the given radix? -/
def isRadixDigit (radix : Nat) (c : Char) : Bool :=
  digitVal c < radix

/-- Horner evaluation of a digit string in the given radix. -/
def natOfDigits (radix : Nat) : List Char → Nat → Nat
  | [], acc => acc
  | c :: cs, acc => natOfDigits radix cs (acc * radix + digitVal c)

/-- JavaScript `parseInt(str)` with no radix argument: skip leading
whitespace, read an optional sign, switch to hexadecimal after a `0x`/`0X`
prefix, then take the longest prefix of radix digits; `none` models `NaN`
(no digits at all).  Note that a leading `-` is accepted, so negative
integers parse successfully. -/
def jsParseInt (str : String) : Option Int :=
  let cs0 := str.toList.dropWhile Char.isWhitespace
  let sign : Int := match cs0 with
    | '-' :: _ => -1
    | _ => 1
  let cs1 := match cs0 with
    | '-' :: rest => rest
    | '+' :: rest => rest
    | _ => cs0
  let radix : Nat := match cs1 with
    | '0' :: 'x' :: _ => 16
    | '0' :: 'X' :: _ => 16
    | _ => 10
  let cs2 := match cs1 with
    | '0' :: 'x' :: rest => rest
    | '0' :: 'X' :: rest => rest
    | _ => cs1
  let ds := cs2.takeWhile (isRadixDigit radix)
  if ds.isEmpty then none
  else some (sign * (natOfDigits radix ds 0 : Int))

/-- Outcome of one of the `/api/commands/:id` handlers. -/
inductive RouteResponse where
  | error (status : Nat) (message : String) : RouteResponse
  | okCommand (c : Command) : RouteResponse
  | noContent : RouteResponse
deriving DecidableEq

/-- `GET /api/commands/:id`: reject ids whose `parseInt` is `NaN` with
400 before consulting the store; a parsed id missing from the store is 404. -/
def getCommandRoute (s : MemStorage) (idParam : String) : RouteResponse :=
  match jsParseInt idParam with
  | none => .error 400 "Invalid command ID"
  | some id =>
    match s.getCommand id with
    | none => .error 404 "Command not found"
    | some c => .okCommand c

/-- `PATCH /api/commands/:id` with an already-validated body `u`. -/
def updateCommandRoute (s : MemStorage) (idParam : String) (u : CommandUpdate) :
    RouteResponse × MemStorage :=
  match jsParseInt idParam with
  | none => (.error 400 "Invalid command ID", s)
  | some id =>
    match s.updateCommand id u with
    | (none, s2) => (.error 404 "Command not found", s2)
    | (some c, s2) => (.okCommand c, s2)

/-- `DELETE /api/commands/:id`. -/
def deleteCommandRoute (s : MemStorage) (idParam : String) :
    RouteResponse × MemStorage :=
  match jsParseInt idParam with
  | none => (.error 400 "Invalid command ID", s)
  | some id =>
    let r := s.deleteCommand id
    if r.1 then (.noContent, r.2) else (.error 404 "Command not found", r.2)

/-- `GET /api/logs`: `req.query.limit ? parseInt(req.query.limit) : undefined`
— an absent or empty query value is `undefined`, an unparseable one is `NaN`
(which `getLogs` then treats as falsy, i.e. as no limit at all). -/
def logsRoute (s : MemStorage) (limitQ : Option String) : List Log :=
  let limit : Option JsNum :=
    match limitQ with
    | none => none
    | some q =>
      if q = "" then none
      else
        match jsParseInt q with
        | none => some .nan
        | some n => some (.int n)
  (s.getLogs limit).1

/-! ### `POST /api/test-command` (the Command Simulator) -/

/-- Outcome of the test-command handler. -/
inductive TestCommandResponse where
  | badRequest (message : String) : TestCommandResponse
  | notFound (message response : String) : TestCommandResponse
  | ok (message response : String) : TestCommandResponse
deriving DecidableEq

/-- Derive the bare command token: drop a leading `/` if present, then take
the substring up to the first space (`split(\x27 \x27)[0]`), working on the
character list so the kernel can evaluate it. -/
def commandToken (command : String) : String :=
  let cs := match command.toList with
    | '/' :: rest => rest
    | cs => cs
  ⟨cs.takeWhile (fun c => c != ' ')⟩

/-- JavaScript `string || default`: the empty string is falsy. -/
def jsOrString (v d : String) : String :=
  if v = "" then d else v

/-- Canned `ping` response; `latency` stands for the pseudo-random value
`Math.floor(Math.random() * 50) + 20`. -/
def pingResponse (latency : Nat) : String :=
  "Pong! 🏓 Bot latency: " ++ toString latency ++
    "ms\nBot is online and functioning properly!"

/-- Canned `help` response: every active command as `/name - description`. -/
def helpResponse (s : MemStorage) : String :=
  "Available commands:\n" ++
    String.intercalate "\n"
      ((s.getCommands.filter (fun c => c.active)).map
        (fun c => "/" ++ c.name ++ " - " ++ c.description))

/-- Canned `uptime` response: `stats?.uptime || "unknown"`. -/
def uptimeResponse (s : MemStorage) : String :=
  "Bot has been online for " ++
    (match s.getBotStats with
     | none => "unknown"
     | some st => jsOrString st.uptime "unknown")

/-- Canned `stats` response with `|| 0` / `|| "0 MB"` fallbacks. -/
def statsResponse (s : MemStorage) : String :=
  let servers : Int := match s.getBotStats with
    | none => 0
    | some b => b.servers
  let cmds : Int := match s.getBotStats with
    | none => 0
    | some b => b.commands
  let mem : String := match s.getBotStats with
    | none => "0 MB"
    | some b => jsOrString b.memoryUsage "0 MB"
  let lat : Int := match s.getBotStats with
    | none => 0
    | some b => b.apiLatency
  "Bot Stats:\nServers: " ++ toString servers ++ "\nCommands: " ++
    toString cmds ++ "\nMemory Usage: " ++ mem ++ "\nAPI Latency: " ++
    toString lat ++ "ms"

/-- The `POST /api/test-command` handler.  An empty `command` is falsy and is
rejected up front with 400.  A token with no matching stored command returns
404 carrying both a `message` and a `response` — and returns *before* the
`createLog` call, so that path writes no log.  A found token produces a
canned response and then appends a "Test" log entry. -/
def testCommand (s : MemStorage) (command : String) (now : Nat)
    (latency : Nat) : TestCommandResponse × MemStorage :=
  if command = "" then (.badRequest "Command is required", s)
  else
    let commandName := commandToken command
    match s.getCommandByName commandName with
    | none =>
      (.notFound ("Command \x27" ++ commandName ++ "\x27 not found")
                 ("Unknown command: " ++ commandName), s)
    | some _ =>
      let response :=
        if commandName = "ping" then pingResponse latency
        else if commandName = "help" then helpResponse s
        else if commandName = "uptime" then uptimeResponse s
        else if commandName = "stats" then statsResponse s
        else "Executed command: " ++ command
      let s2 :=
        (s.createLog
          { eventType := "Test", server := "Dashboard", user := "User",
            details := "Tested command: " ++ command } now).2
      (.ok "Command executed" response, s2)

/-! ### Concrete states used as witnesses -/

/-- The `ping` command as seeded by a constructor run at time 0. -/
def seedPing : Command :=
  { id := 1, name := "ping",
    description := "Checks the bot\x27s response time and health status.",
    usage := "/ping", active := true, createdAt := 0 }

/-- The `help` command as seeded by a constructor run at time 0. -/
def seedHelp : Command :=
  { id := 2, name := "help",
    description := "Displays a list of available commands and their usage.",
    usage := "/help [command]", active := true, createdAt := 0 }

/-- A freshly constructed store to which five logs with pairwise distinct
timestamps have been appended (out of timestamp order). -/
def fiveLogStore : MemStorage :=
  runOps (initMemStorage 0)
    [ .log { eventType := "A", server := "s", user := "u", details := "1" } 3,
      .log { eventType := "B", server := "s", user := "u", details := "2" } 9,
      .log { eventType := "C", server := "s", user := "u", details := "3" } 4,
      .log { eventType := "D", server := "s", user := "u", details := "4" } 8,
      .log { eventType := "E", server := "s", user := "u", details := "5" } 6 ]

/-- Operation sequence that creates a second command named `ping`. -/
def dupNameOps : List Op :=
  [ .create { name := "ping", description := "a second ping",
              usage := "/ping", active := true } 1 ]

/-- A reachable store holding two distinct commands that share the name
`ping`: the constructor seed and one more `createCommand` call. -/
def dupNameStore : MemStorage :=
  runOps (initMemStorage 0) dupNameOps

/-- Id-uniqueness invariant: the stored command ids are pairwise distinct and
all lie strictly below the id counter. -/
def IdInv (s : MemStorage) : Prop :=
  (s.commands.map Command.id).Pairwise (fun a b => a ≠ b) ∧
  ∀ a ∈ s.commands.map Command.id, a < s.commandsIdCounter

/-! ### Sortedness of `sortLogsDesc` -/

theorem mem_insertDesc {l x : Log} {xs : List Log} :
    x ∈ MemStorage.insertDesc l xs ↔ x = l ∨ x ∈ xs := by
  induction xs with
  | nil => simp [MemStorage.insertDesc]
  | cons y ys ih =>
    simp only [MemStorage.insertDesc]
    split
    · simp only [List.mem_cons, ih]
      tauto
    · simp [List.mem_cons]

theorem pairwise_insertDesc {l : Log} {xs : List Log}
    (h : xs.Pairwise (fun a b => b.timestamp ≤ a.timestamp)) :
    (MemStorage.insertDesc l xs).Pairwise
      (fun a b => b.timestamp ≤ a.timestamp) := by
  induction xs with
  | nil => simp [MemStorage.insertDesc]
  | cons y ys ih =>
    rcases List.pairwise_cons.mp h with ⟨hy, hys⟩
    simp only [MemStorage.insertDesc]
    split
    case isTrue hge =>
      refine List.pairwise_cons.mpr ⟨?_, ih hys⟩
      intro a ha
      rcases mem_insertDesc.mp ha with rfl | ha
      · exact hge
      · exact hy a ha
    case isFalse hlt =>
      refine List.pairwise_cons.mpr ⟨?_, h⟩
      intro a ha
      rcases List.mem_cons.mp ha with rfl | ha
      · omega
      · have := hy a ha
        omega

theorem sortLogsDesc_pairwise (logs : List Log) :
    (MemStorage.sortLogsDesc logs).Pairwise
      (fun a b => b.timestamp ≤ a.timestamp) := by
  induction logs with
  | nil => simp [MemStorage.sortLogsDesc]
  | cons x xs ih => exact pairwise_insertDesc ih

/-! ### Claim theorems -/

/-- C4: the sequence returned by `getLogs` with no limit is sorted in strictly
descending timestamp order on every pair of entries with distinct timestamps,
and the store (hence every stored log entry) is unchanged by the retrieval. -/
theorem getLogs_sorted_desc (s : MemStorage) :
    ((s.getLogs none).1.Pairwise
      (fun a b => a.timestamp ≠ b.timestamp → b.timestamp < a.timestamp)) ∧
    (s.getLogs none).2 = s := by
  constructor
  · have h := sortLogsDesc_pairwise s.logs
    have h2 : (s.getLogs none).1 = MemStorage.sortLogsDesc s.logs := rfl
    rw [h2]
    refine h.imp ?_
    intro a b hle hne
    omega
  · rfl

/-- C3 (amended): for every *positive* limit `n`, `getLogs` returns exactly
the first `n` entries of the timestamp-descending-sorted log sequence, while
a limit of `0` is falsy and behaves like no limit at all, returning the whole
sorted sequence. -/
theorem getLogs_pos_limit_take (s : MemStorage) (n : Int) (h : 0 < n) :
    (s.getLogs (some (.int n))).1 = (s.getLogs none).1.take n.toNat ∧
    (s.getLogs (some (.int 0))).1 = (s.getLogs none).1 := by
  constructor
  · have hne : (n != 0) = true := by
      simp only [bne_iff_ne, ne_eq]
      omega
    simp only [MemStorage.getLogs, jsTruthy, hne, if_true, MemStorage.jsSliceTo,
      if_neg (by omega : ¬ n < 0)]
    rfl
  · rfl

/-- C3 (counterexample): on a store with five logs, `getLogs(0)` returns all
five entries, not the first `0` entries of the sorted sequence. -/
theorem getLogs_zero_limit_counterexample :
    (fiveLogStore.getLogs (some (.int 0))).1 ≠
      (MemStorage.sortLogsDesc fiveLogStore.logs).take (0 : Int).toNat ∧
    (fiveLogStore.getLogs (some (.int 0))).1.length = 5 := by
  decide

/-- C3 (witness): `getLogs(2)` on a store with five logs returns exactly the
two most recent entries. -/
theorem getLogs_pos_limit_take_witness :
    (fiveLogStore.getLogs (some (.int 2))).1 =
      (fiveLogStore.getLogs none).1.take (2 : Int).toNat ∧
    (fiveLogStore.getLogs (some (.int 0))).1 = (fiveLogStore.getLogs none).1 :=
  getLogs_pos_limit_take fiveLogStore 2 (by decide)

/-- C10: a freshly constructed `MemStorage` is pre-seeded with exactly four
active commands `ping`, `help`, `uptime`, `stats` carrying ids 1–4, and the
`BotStat` singleton is initialized (id 1, 0 servers, 4 commands, 0 latency),
so `getCommands` returns four commands and `getBotStats` is never absent. -/
theorem initMemStorage_seeded (t : Nat) :
    (initMemStorage t).getCommands.map (fun c => (c.id, c.name, c.active)) =
      [(1, "ping", true), (2, "help", true), (3, "uptime", true),
       (4, "stats", true)] ∧
    (initMemStorage t).getCommands.length = 4 ∧
    (initMemStorage t).getBotStats =
      some { id := 1, uptime := "0d 0h 0m", servers := 0, commands := 4,
             memoryUsage := "0 MB", apiLatency := 0, startedAt := t,
             updatedAt := t } := by
  exact ⟨rfl, rfl, rfl⟩

/-- C7 (amended): for every *nonempty* input whose derived token (leading `/`
dropped, truncated at the first space) matches no stored command name, the
handler returns 404 carrying both `message "Command '<token>' not found"` and
`response "Unknown command: <token>"`, and the store is unchanged. -/
theorem testCommand_unknown_404 (s : MemStorage) (command : String)
    (now latency : Nat) (hne : command ≠ "")
    (hmiss : s.getCommandByName (commandToken command) = none) :
    testCommand s command now latency =
      (.notFound ("Command \x27" ++ commandToken command ++ "\x27 not found")
                 ("Unknown command: " ++ commandToken command), s) := by
  simp only [testCommand, if_neg hne, hmiss]

/-- C7 (witness): `{command: "/nonexistent"}` on a fresh store yields the 404
body of the scenario in the spec. -/
theorem testCommand_unknown_404_witness :
    testCommand (initMemStorage 0) "/nonexistent" 0 20 =
      (.notFound ("Command \x27" ++ commandToken "/nonexistent" ++
                    "\x27 not found")
                 ("Unknown command: " ++ commandToken "/nonexistent"),
       initMemStorage 0) :=
  testCommand_unknown_404 (initMemStorage 0) "/nonexistent" 0 20
    (by decide) (by decide)

/-- C7 (counterexample): the empty input derives the token `""`, which
matches no stored command name, yet the handler answers 400
`Command is required` — not the 404 the claim promises for every such
input. -/
theorem testCommand_empty_input_counterexample :
    (initMemStorage 0).getCommandByName (commandToken "") = none ∧
    (testCommand (initMemStorage 0) "" 0 20).1 ≠
      .notFound ("Command \x27\x27 not found") ("Unknown command: ") ∧
    (testCommand (initMemStorage 0) "" 0 20).1 =
      .badRequest "Command is required" := by
  refine ⟨rfl, ?_, rfl⟩
  decide

/-- C6 (counterexample): testing the unknown command `/nonexistent` produces
its 404 response and completes with the store — in particular the log list —
fully unchanged: the simulated path *can* complete without logging. -/
theorem testCommand_notFound_no_log :
    (testCommand (initMemStorage 0) "/nonexistent" 0 20).2 =
      initMemStorage 0 ∧
    (initMemStorage 0).logs = [] := by
  refine ⟨?_, rfl⟩
  decide

/-- C6 (amended): on every *found* command (nonempty input whose token is in
the store), after the response is produced a Log entry with eventType
`"Test"` recording the attempted command text is appended to the log store;
the unknown-command path returns before the logging call. -/
theorem testCommand_found_appends_log (s : MemStorage) (command : String)
    (now latency : Nat) (c : Command) (hne : command ≠ "")
    (hfound : s.getCommandByName (commandToken command) = some c) :
    (testCommand s command now latency).2.logs =
      s.logs ++ [{ id := s.logsIdCounter, eventType := "Test",
                   server := "Dashboard", user := "User",
                   details := "Tested command: " ++ command,
                   timestamp := now }] ∧
    (testCommand s command now latency).2.logsIdCounter =
      s.logsIdCounter + 1 := by
  simp only [testCommand, if_neg hne, hfound, MemStorage.createLog]
  exact ⟨trivial, trivial⟩

/-- C6 (witness): testing `/ping` on a fresh store appends exactly one
`"Test"` log entry recording the attempted text. -/
theorem testCommand_found_appends_log_witness :
    (testCommand (initMemStorage 0) "/ping" 3 20).2.logs =
      (initMemStorage 0).logs ++
        [{ id := (initMemStorage 0).logsIdCounter, eventType := "Test",
           server := "Dashboard", user := "User",
           details := "Tested command: " ++ "/ping", timestamp := 3 }] ∧
    (testCommand (initMemStorage 0) "/ping" 3 20).2.logsIdCounter =
      (initMemStorage 0).logsIdCounter + 1 :=
  testCommand_found_appends_log (initMemStorage 0) "/ping" 3 20 seedPing
    (by decide) (by decide)

/-- C8 (amended): the `:id` route parameter is parsed with JavaScript
`parseInt`, which accepts any integer — including negative ones — so only a
parameter parsing to `NaN` is rejected; every such parameter fails on all
three id routes with 400 `Invalid command ID` before any Data Store
operation, leaving the store unchanged. -/
theorem idRoutes_nan_invalid (s : MemStorage) (p : String) (u : CommandUpdate)
    (h : jsParseInt p = none) :
    getCommandRoute s p = .error 400 "Invalid command ID" ∧
    updateCommandRoute s p u = (.error 400 "Invalid command ID", s) ∧
    deleteCommandRoute s p = (.error 400 "Invalid command ID", s) := by
  refine ⟨?_, ?_, ?_⟩ <;>
    simp only [getCommandRoute, updateCommandRoute, deleteCommandRoute, h]

/-- C8 (witness): the path parameter `abc` of the spec scenario is rejected
with 400 on all three routes and the store is untouched. -/
theorem idRoutes_nan_invalid_witness :
    getCommandRoute (initMemStorage 0) "abc" =
      .error 400 "Invalid command ID" ∧
    updateCommandRoute (initMemStorage 0) "abc" {} =
      (.error 400 "Invalid command ID", initMemStorage 0) ∧
    deleteCommandRoute (initMemStorage 0) "abc" =
      (.error 400 "Invalid command ID", initMemStorage 0) :=
  idRoutes_nan_invalid (initMemStorage 0) "abc" {} (by decide)

/-- C8 (counterexample): the parameter `-5` does not denote a non-negative
integer, yet `parseInt` returns `-5` (not `NaN`), so the handler consults the
store — answering 404 from the lookup — instead of failing validation
with 400. -/
theorem negative_id_counterexample :
    jsParseInt "-5" = some (-5) ∧
    getCommandRoute (initMemStorage 0) "-5" ≠
      RouteResponse.error 400 "Invalid command ID" ∧
    getCommandRoute (initMemStorage 0) "-5" =
      .error 404 "Command not found" := by
  refine ⟨by decide, by decide, by decide⟩

/-- C9: a supplied `limit` query value that does not parse as an integer is
`NaN`, which `getLogs` treats as absent: the full descending-sorted log
sequence is returned and no error is raised. -/
theorem logsRoute_malformed_limit (s : MemStorage) (q : String)
    (h : jsParseInt q = none) :
    logsRoute s (some q) = logsRoute s none ∧
    logsRoute s none = MemStorage.sortLogsDesc s.logs := by
  constructor
  · by_cases hq : q = "" <;>
      simp [logsRoute, hq, h, MemStorage.getLogs, jsTruthy]
  · rfl

/-- C9 (witness): `?limit=zz` on a five-log store returns all five logs in
descending timestamp order, exactly as with no limit. -/
theorem logsRoute_malformed_limit_witness :
    logsRoute fiveLogStore (some "zz") = logsRoute fiveLogStore none ∧
    logsRoute fiveLogStore none =
      MemStorage.sortLogsDesc fiveLogStore.logs :=
  logsRoute_malformed_limit fiveLogStore "zz" (by decide)

theorem find?_update_frame (l : List Command) (i j : Int) (upd : Command)
    (hid : upd.id = i) (hne : j ≠ i) :
    (l.map (fun d => if d.id == i then upd else d)).find?
      (fun d => d.id == j) = l.find? (fun d => d.id == j) := by
  induction l with
  | nil => rfl
  | cons d ds ih =>
    by_cases hd : d.id = i
    · have hfd : (if d.id == i then upd else d) = upd := by simp [hd]
      rw [List.map_cons, hfd,
        List.find?_cons_of_neg _ (by simp only [hid, beq_iff_eq]; omega),
        List.find?_cons_of_neg _ (by simp only [hd, beq_iff_eq]; omega)]
      exact ih
    · have hfd : (if d.id == i then upd else d) = d := by simp [hd]
      rw [List.map_cons, hfd]
      by_cases hj : d.id = j
      · rw [List.find?_cons_of_pos _ (by simp [hj]),
            List.find?_cons_of_pos _ (by simp [hj])]
      · rw [List.find?_cons_of_neg _ (by simp [hj]),
            List.find?_cons_of_neg _ (by simp [hj])]
        exact ih

/-- C5: when a command `c` is stored under id `i`, `updateCommand i u`
returns a command obtained by merging exactly the supplied fields of `u`
onto `c` — never altering `id` or `createdAt`; in particular the patch
`{active := false}` flips only `active`.  The store keeps its size and every
other id `j ≠ i` still resolves to its previous record. -/
theorem updateCommand_merge_frame (s : MemStorage) (i j : Int)
    (u : CommandUpdate) (c : Command)
    (hfind : s.getCommand i = some c) (hj : j ≠ i) :
    (∃ c2, (s.updateCommand i u).1 = some c2 ∧
      c2.id = c.id ∧ c2.createdAt = c.createdAt ∧
      c2.name = u.name.getD c.name ∧
      c2.description = u.description.getD c.description ∧
      c2.usage = u.usage.getD c.usage ∧
      c2.active = u.active.getD c.active) ∧
    (s.updateCommand i { active := some false }).1 =
      some { id := c.id, name := c.name, description := c.description,
             usage := c.usage, active := false,
             createdAt := c.createdAt } ∧
    (s.updateCommand i u).2.commands.length = s.commands.length ∧
    (s.updateCommand i u).2.getCommand j = s.getCommand j := by
  have hfind2 : s.commands.find? (fun d => d.id == i) = some c := hfind
  have hcid : c.id = i := by simpa using List.find?_some hfind2
  refine ⟨⟨MemStorage.mergeCommand c u, ?_, rfl, rfl, rfl, rfl, rfl, rfl⟩,
    ?_, ?_, ?_⟩
  · simp only [MemStorage.updateCommand, hfind2]
  · simp only [MemStorage.updateCommand, hfind2]
    rfl
  · simp only [MemStorage.updateCommand, hfind2, List.length_map]
  · simp only [MemStorage.updateCommand, hfind2, MemStorage.getCommand]
    exact find?_update_frame s.commands i j (MemStorage.mergeCommand c u)
      (by simp [MemStorage.mergeCommand, hcid]) hj

/-- C5 (witness): deactivating the seeded `ping` command (id 1) on a fresh
store flips only `active`; the command stored under id 2 is untouched. -/
theorem updateCommand_merge_frame_witness :
    (∃ c2, ((initMemStorage 0).updateCommand 1
        { active := some false }).1 = some c2 ∧
      c2.id = seedPing.id ∧ c2.createdAt = seedPing.createdAt ∧
      c2.name = (({ active := some false } : CommandUpdate)).name.getD
        seedPing.name ∧
      c2.description =
        (({ active := some false } : CommandUpdate)).description.getD
          seedPing.description ∧
      c2.usage = (({ active := some false } : CommandUpdate)).usage.getD
        seedPing.usage ∧
      c2.active = (({ active := some false } : CommandUpdate)).active.getD
        seedPing.active) ∧
    ((initMemStorage 0).updateCommand 1 { active := some false }).1 =
      some { id := seedPing.id, name := seedPing.name,
             description := seedPing.description, usage := seedPing.usage,
             active := false, createdAt := seedPing.createdAt } ∧
    ((initMemStorage 0).updateCommand 1
        { active := some false }).2.commands.length =
      (initMemStorage 0).commands.length ∧
    ((initMemStorage 0).updateCommand 1
        { active := some false }).2.getCommand 2 =
      (initMemStorage 0).getCommand 2 :=
  updateCommand_merge_frame (initMemStorage 0) 1 2 { active := some false }
    seedPing (by decide) (by decide)

theorem updateCommand_map_id (s : MemStorage) (id : Int) (u : CommandUpdate) :
    (s.updateCommand id u).2.commands.map Command.id =
      s.commands.map Command.id := by
  cases hfind : s.commands.find? (fun c => c.id == id) with
  | none => simp [MemStorage.updateCommand, hfind]
  | some c =>
    have hcid : c.id = id := by simpa using List.find?_some hfind
    simp only [MemStorage.updateCommand, hfind, List.map_map]
    apply List.map_congr_left
    intro d hd
    by_cases h : d.id = id <;>
      simp [Function.comp, h, MemStorage.mergeCommand, hcid]

theorem updateCommand_counter (s : MemStorage) (id : Int) (u : CommandUpdate) :
    (s.updateCommand id u).2.commandsIdCounter = s.commandsIdCounter := by
  cases hfind : s.commands.find? (fun c => c.id == id) <;>
    simp [MemStorage.updateCommand, hfind]

theorem deleteCommand_counter (s : MemStorage) (id : Int) :
    (s.deleteCommand id).2.commandsIdCounter = s.commandsIdCounter := by
  simp only [MemStorage.deleteCommand]
  split <;> rfl

theorem step_IdInv (s : MemStorage) (op : Op) (h : IdInv s) :
    IdInv (step s op) := by
  obtain ⟨hpw, hlt⟩ := h
  cases op with
  | create c now =>
    constructor
    · show ((s.commands ++ [_]).map Command.id).Pairwise _
      rw [List.map_append, List.pairwise_append]
      refine ⟨hpw, by simp, ?_⟩
      intro a ha b hb
      simp only [List.map_cons, List.map_nil, List.mem_singleton] at hb
      subst hb
      have := hlt a ha
      show a ≠ s.commandsIdCounter
      omega
    · intro a ha
      show a < s.commandsIdCounter + 1
      rw [show (step s (.create c now)).commands = s.commands ++ [_] from rfl,
        List.map_append] at ha
      rcases List.mem_append.mp ha with ha | ha
      · have := hlt a ha
        omega
      · simp only [List.map_cons, List.map_nil, List.mem_singleton] at ha
        omega
  | update id u =>
    constructor
    · rw [show (step s (.update id u)).commands = (s.updateCommand id u).2.commands
          from rfl, updateCommand_map_id]
      exact hpw
    · intro a ha
      rw [show (step s (.update id u)).commands = (s.updateCommand id u).2.commands
          from rfl, updateCommand_map_id] at ha
      rw [show (step s (.update id u)).commandsIdCounter =
            (s.updateCommand id u).2.commandsIdCounter from rfl,
        updateCommand_counter]
      exact hlt a ha
  | delete id =>
    constructor
    · refine List.Pairwise.sublist ?_ hpw
      show ((s.deleteCommand id).2.commands.map Command.id).Sublist _
      simp only [MemStorage.deleteCommand]
      split
      · exact List.Sublist.map Command.id (List.filter_sublist s.commands)
      · exact List.Sublist.refl _
    · intro a ha
      show a < (s.deleteCommand id).2.commandsIdCounter
      rw [deleteCommand_counter]
      apply hlt
      revert ha
      show a ∈ (s.deleteCommand id).2.commands.map Command.id → _
      simp only [MemStorage.deleteCommand]
      split
      · intro ha
        rcases List.mem_map.mp ha with ⟨d, hd, rfl⟩
        exact List.mem_map.mpr ⟨d, (List.mem_filter.mp hd).1, rfl⟩
      · exact fun ha => ha
  | log l now => exact ⟨hpw, hlt⟩
  | stats st => exact ⟨hpw, hlt⟩

theorem runOps_IdInv (ops : List Op) (s : MemStorage) (h : IdInv s) :
    IdInv (runOps s ops) := by
  induction ops generalizing s with
  | nil => exact h
  | cons op ops ih => exact ih _ (step_IdInv s op h)

theorem initMemStorage_IdInv (t : Nat) : IdInv (initMemStorage t) := by
  constructor
  · have h4 : (initMemStorage t).commands.map Command.id = [1, 2, 3, 4] := rfl
    rw [h4]
    decide
  · intro a ha
    have h4 : (initMemStorage t).commands.map Command.id = [1, 2, 3, 4] := rfl
    have hc : (initMemStorage t).commandsIdCounter = 5 := rfl
    rw [h4] at ha
    rw [hc]
    simp only [List.mem_cons, List.not_mem_nil, or_false] at ha
    rcases ha with rfl | rfl | rfl | rfl <;> omega

/-- C1 (amended): id uniqueness is an invariant of the Data Store — in every
reachable store state, distinct stored commands carry distinct ids, and every
sequence of operations preserves this.  Name uniqueness, however, is *not*
enforced by the store (see the counterexample). -/
theorem reachable_id_unique (s : MemStorage) (h : reachable s)
    (c1 c2 : Command) (h1 : c1 ∈ s.commands) (h2 : c2 ∈ s.commands)
    (hne : c1 ≠ c2) : c1.id ≠ c2.id := by
  obtain ⟨t, ops, rfl⟩ := h
  have hinv := (runOps_IdInv ops _ (initMemStorage_IdInv t)).1
  have hp : (runOps (initMemStorage t) ops).commands.Pairwise
      (fun a b => a.id ≠ b.id) := List.pairwise_map.mp hinv
  exact hp.forall (fun _ _ hab => Ne.symm hab) h1 h2 hne

/-- C1 (witness): in the freshly constructed (hence reachable) store, the
distinct seeded commands `ping` and `help` have distinct ids. -/
theorem reachable_id_unique_witness : seedPing.id ≠ seedHelp.id :=
  reachable_id_unique (initMemStorage 0) ⟨0, [], rfl⟩ seedPing seedHelp
    (by decide) (by decide) (by decide)

/-- C1 (counterexample): `createCommand` performs no name-uniqueness check:
creating a second command named `ping` on a fresh store yields a reachable
state holding two distinct commands with the same name. -/
theorem createCommand_duplicate_name :
    reachable dupNameStore ∧
    ∃ c1 ∈ dupNameStore.commands, ∃ c2 ∈ dupNameStore.commands,
      c1 ≠ c2 ∧ c1.name = c2.name := by
  constructor
  · exact ⟨0, dupNameOps, rfl⟩
  · decide

theorem createdIds_pairwise_lt (ops : List Op) (s : MemStorage) :
    ((createdIds s ops).Pairwise (fun a b => a < b)) ∧
    ∀ i ∈ createdIds s ops, s.commandsIdCounter ≤ i := by
  induction ops generalizing s with
  | nil => exact ⟨List.Pairwise.nil, by simp [createdIds]⟩
  | cons op ops ih =>
    cases op with
    | create c now =>
      obtain ⟨hp, hle⟩ := ih (step s (.create c now))
      have hcnt : (step s (.create c now)).commandsIdCounter =
          s.commandsIdCounter + 1 := rfl
      constructor
      · refine List.pairwise_cons.mpr ⟨?_, hp⟩
        intro b hb
        have := hle b hb
        show s.commandsIdCounter < b
        omega
      · intro i hi
        rcases List.mem_cons.mp hi with rfl | hi
        · exact le_refl _
        · have := hle i hi
          omega
    | update id u =>
      obtain ⟨hp, hle⟩ := ih (step s (.update id u))
      refine ⟨hp, fun i hi => ?_⟩
      have := hle i hi
      have hcnt : (step s (.update id u)).commandsIdCounter =
          s.commandsIdCounter := updateCommand_counter s id u
      omega
    | delete id =>
      obtain ⟨hp, hle⟩ := ih (step s (.delete id))
      refine ⟨hp, fun i hi => ?_⟩
      have := hle i hi
      have hcnt : (step s (.delete id)).commandsIdCounter =
          s.commandsIdCounter := deleteCommand_counter s id
      omega
    | log l now =>
      obtain ⟨hp, hle⟩ := ih (step s (.log l now))
      exact ⟨hp, fun i hi => hle i hi⟩
    | stats st =>
      obtain ⟨hp, hle⟩ := ih (step s (.stats st))
      exact ⟨hp, fun i hi => hle i hi⟩

/-- C2: over every operation sequence — `deleteCommand` calls interleaved at
will — the ids assigned by successive `createCommand` calls are strictly
increasing, and every one of them is strictly greater than the four ids
(1–4) the constructor's own creates assigned; so no id is ever reused, even
after the command holding it was deleted. -/
theorem createdIds_strictly_increasing (t : Nat) (ops : List Op) :
    ([1, 2, 3, 4] ++ createdIds (initMemStorage t) ops).Pairwise
      (fun a b => a < b) := by
  obtain ⟨hp, hle⟩ := createdIds_pairwise_lt ops (initMemStorage t)
  rw [List.pairwise_append]
  refine ⟨by decide, hp, ?_⟩
  intro a ha b hb
  have h5 : (initMemStorage t).commandsIdCounter = 5 := rfl
  have := hle b hb
  rw [h5] at this
  simp only [List.mem_cons, List.not_mem_nil, or_false] at ha
  rcases ha with rfl | rfl | rfl | rfl <;> omega

end BotDashboard
